import Mathlib

/-!
Shallow embedding of the github_retry repository's core triage logic
(`pr_processor.py`, plus the driver triage in `main.py`), with theorems
checking the natural-language specification against it.

Modelling conventions:
* Python `None` becomes `Option.none`; SQLAlchemy rows become plain structures.
* Wall-clock times are integers (seconds); `datetime.timedelta(minutes=d)`
  becomes `timedeltaMinutes d = 60 * d`.
* Python truthiness of config values (`if check_level:`) is modelled by
  `truthyNat` / `truthyBool` (a configured 0 or False is falsy).
* Side effects (notifier and retrier calls) are recorded as a list of
  `Effect` values in the order the code issues them; the bucket report a
  call receives is the snapshot at call time.
-/

/-- A remote check observation, as returned by the GitHub statuses API
(`status.context`, `status.state`, `status.id`). -/
structure GhCheck where
  context : String
  state : String
  id : Nat
deriving DecidableEq

/-- The persisted `pull_requests` row (`models.PullRequest`). -/
structure PullRequest where
  repo : String
  number : Nat
  last_processed_sha : Option String
  status : Option String
deriving DecidableEq

/-- `models.PullRequest.slug`: `'%s#%s' % (repo, number)`. -/
def PullRequest.slug (pr : PullRequest) : String :=
  pr.repo ++ "#" ++ toString pr.number

/-- The persisted `checks` row (`models.Check`). -/
structure Check where
  repo : String
  number : Nat
  context : String
  failure_count : Nat
  last_errored_id : Option Nat
  last_retried_at : Option Int
deriving DecidableEq

/-- `models.Check.__init__`: fresh check with a zero failure count. -/
def Check.new (pr : PullRequest) (context : String) : Check :=
  ⟨pr.repo, pr.number, context, 0, none, none⟩

/-- Check-level configuration node
(`repositories.<repo>.checks.<context>` in the YAML file). -/
structure CheckConfig where
  ignore : Option Bool := none
  max_retries : Option Nat := none
  max_retry_delay : Option Nat := none
deriving DecidableEq

/-- Repository-level configuration node (`repositories.<repo>`). -/
structure RepoConfig where
  checks : List (String × CheckConfig) := []
  ignore : Option Bool := none
  max_retries : Option Nat := none
  max_retry_delay : Option Nat := none
  retrier_class : Option String := none
deriving DecidableEq

/-- Root configuration node (the whole YAML mapping). -/
structure Config where
  repositories : List (String × RepoConfig) := []
  ignore : Option Bool := none
  max_retries : Option Nat := none
  max_retry_delay : Option Nat := none
deriving DecidableEq

/-- First-match association-list lookup (Python `dict.get`). -/
def lookupStr {α : Type} : List (String × α) → String → Option α
  | [], _ => none
  | (k, v) :: rest, key => if k = key then some v else lookupStr rest key

/-- The two multi-level numeric configuration parameters. -/
inductive ConfigKey
  | max_retries
  | max_retry_delay
deriving DecidableEq

def CheckConfig.get : CheckConfig → ConfigKey → Option Nat
  | c, .max_retries => c.max_retries
  | c, .max_retry_delay => c.max_retry_delay

def RepoConfig.get : RepoConfig → ConfigKey → Option Nat
  | r, .max_retries => r.max_retries
  | r, .max_retry_delay => r.max_retry_delay

def Config.get : Config → ConfigKey → Option Nat
  | c, .max_retries => c.max_retries
  | c, .max_retry_delay => c.max_retry_delay

/-- `config.get('repositories', repo, 'checks', context)`. -/
def checkNodeOf (cfg : Config) (repo ctx : String) : Option CheckConfig :=
  (lookupStr cfg.repositories repo).bind (fun rc => lookupStr rc.checks ctx)

/-- `_check_config(context, key)` for a numeric key. -/
def checkLevelConfig (cfg : Config) (repo ctx : String) (key : ConfigKey) : Option Nat :=
  (checkNodeOf cfg repo ctx).bind (fun cc => cc.get key)

/-- `_repo_config(key)` for a numeric key. -/
def repoLevelConfig (cfg : Config) (repo : String) (key : ConfigKey) : Option Nat :=
  (lookupStr cfg.repositories repo).bind (fun rc => rc.get key)

/-- `config.get(key)` at the root, for a numeric key. -/
def rootLevelConfig (cfg : Config) (key : ConfigKey) : Option Nat :=
  cfg.get key

/-- Python truthiness of an optional numeric config value: `None` and `0`
are falsy. -/
def truthyNat : Option Nat → Bool
  | none => false
  | some n => n != 0

/-- Python truthiness of an optional boolean config value. -/
def truthyBool : Option Bool → Bool
  | none => false
  | some b => b

/-- `PullRequestProcessor._resolve_multi_level_config`: check level, then
repository level, then root level, each taken only when truthy, else the
hard-coded default. -/
def resolveMultiLevelConfig (cfg : Config) (repo ctx : String) (key : ConfigKey)
    (dflt : Nat) : Nat :=
  let check_level := checkLevelConfig cfg repo ctx key
  if truthyNat check_level then check_level.getD dflt
  else
    let repo_level := repoLevelConfig cfg repo key
    if truthyNat repo_level then repo_level.getD dflt
    else
      let root_level := rootLevelConfig cfg key
      if truthyNat root_level then root_level.getD dflt
      else dflt

/-- `self._check_config(gh_check.context, 'ignore')`, as a boolean: the
code consults only the check-specific `ignore` flag. -/
def checkIgnored (cfg : Config) (repo ctx : String) : Bool :=
  truthyBool ((checkNodeOf cfg repo ctx).bind CheckConfig.ignore)

/-- `PullRequestProcessor.DEFAULT_MAX_RETRIES`. -/
def DEFAULT_MAX_RETRIES : Nat := 7

/-- `PullRequestProcessor.DEFAULT_MAX_RETRY_DELAY` (in minutes). -/
def DEFAULT_MAX_RETRY_DELAY : Nat := 5

/-- `datetime.timedelta(minutes=d)`, with times measured in seconds. -/
def timedeltaMinutes (d : Nat) : Int :=
  60 * d

/-- The five disposition buckets. -/
inductive Bucket
  | successful
  | pending
  | retrying
  | retry_pending
  | too_many_failures
deriving DecidableEq

/-- The body of the loop in
`PullRequestProcessor._update_or_create_db_checks` for one non-ignored
observation: pick (or create) the stored check, reset its failure count on
a new patch, and classify it by observation state, returning the updated
record and its bucket; an unknown state is the `RuntimeError` the code
raises. -/
def classifyCheck (cfg : Config) (pr : PullRequest)
    (existing_db_checks : List (String × Check)) (gh : GhCheck)
    (new_patch : Bool) (now : Int) : Except String (Check × Bucket) :=
  let check :=
    match lookupStr existing_db_checks gh.context with
    | some c => if new_patch then { c with failure_count := 0 } else c
    | none => Check.new pr gh.context
  if gh.state = "error" then
    let max_retries := resolveMultiLevelConfig cfg pr.repo gh.context .max_retries
      DEFAULT_MAX_RETRIES
    if some gh.id = check.last_errored_id then
      if check.failure_count > max_retries then
        .ok (check, .too_many_failures)
      else
        let delay := resolveMultiLevelConfig cfg pr.repo gh.context .max_retry_delay
          DEFAULT_MAX_RETRY_DELAY
        match check.last_retried_at with
        | none => .ok (check, .retrying)
        | some t =>
          if now - t > timedeltaMinutes delay then .ok (check, .retrying)
          else .ok (check, .retry_pending)
    else
      let check := { check with failure_count := check.failure_count + 1,
                                last_errored_id := some gh.id }
      if check.failure_count > max_retries then
        .ok (check, .too_many_failures)
      else
        .ok (check, .retrying)
  else if gh.state = "pending" then
    .ok (check, .pending)
  else if gh.state = "success" then
    .ok (check, .successful)
  else
    .error (unknownStatusMessage gh.state gh.context pr.repo pr.number)
where
  /-- The message of the `RuntimeError` raised for an unknown state. -/
  unknownStatusMessage (state ctx repo : String) (number : Nat) : String :=
    "Unknown check status " ++ state ++ " for check " ++ ctx ++ " in "
      ++ repo ++ "/" ++ toString number

/-- `pr_processor.PullRequestChecksStatus`. -/
structure PullRequestChecksStatus where
  successful : List Check
  pending : List Check
  retrying : List Check
  retry_pending : List Check
  too_many_failures : List Check
deriving DecidableEq

/-- `PullRequestChecksStatus.to_list`. -/
def PullRequestChecksStatus.to_list (s : PullRequestChecksStatus) : List Check :=
  s.successful ++ s.pending ++ s.retrying ++ s.retry_pending ++ s.too_many_failures

def emptyChecksStatus : PullRequestChecksStatus :=
  ⟨[], [], [], [], []⟩

/-- Prepend a check to the bucket it was classified into. -/
def addToBucket (s : PullRequestChecksStatus) (b : Bucket) (c : Check) :
    PullRequestChecksStatus :=
  match b with
  | .successful => { s with successful := c :: s.successful }
  | .pending => { s with pending := c :: s.pending }
  | .retrying => { s with retrying := c :: s.retrying }
  | .retry_pending => { s with retry_pending := c :: s.retry_pending }
  | .too_many_failures => { s with too_many_failures := c :: s.too_many_failures }

/-- `PullRequestProcessor._update_or_create_db_checks`: skip ignored
contexts, classify each remaining observation in order, and collect the
five buckets; the first unknown state aborts with its error. -/
def updateOrCreateDbChecks (cfg : Config) (pr : PullRequest)
    (existing_db_checks : List (String × Check)) (ghChecks : List GhCheck)
    (new_patch : Bool) (now : Int) : Except String PullRequestChecksStatus :=
  match ghChecks with
  | [] => .ok emptyChecksStatus
  | gh :: rest =>
    if checkIgnored cfg pr.repo gh.context then
      updateOrCreateDbChecks cfg pr existing_db_checks rest new_patch now
    else
      match classifyCheck cfg pr existing_db_checks gh new_patch now with
      | .error e => .error e
      | .ok (c, b) =>
        match updateOrCreateDbChecks cfg pr existing_db_checks rest new_patch now with
        | .error e => .error e
        | .ok s => .ok (addToBucket s b c)

/-- The dedup loop of `PullRequestProcessor._fetch_current_gh_checks`,
with its `seen_contexts` accumulator. -/
def fetchCurrentGhChecksAux : List GhCheck → List String → List GhCheck
  | [], _ => []
  | s :: rest, seen =>
    if s.context ∈ seen then fetchCurrentGhChecksAux rest seen
    else s :: fetchCurrentGhChecksAux rest (s.context :: seen)

/-- `PullRequestProcessor._fetch_current_gh_checks`: keep only the first
(most recent) observation per context. -/
def fetchCurrentGhChecks (statuses : List GhCheck) : List GhCheck :=
  fetchCurrentGhChecksAux statuses []

/-- One recorded notifier or retrier call, with the bucket report it was
given at call time. -/
inductive Effect
  | notify_too_many_failures (report : PullRequestChecksStatus)
  | notify_retrying (report : PullRequestChecksStatus)
  | notify_success (report : PullRequestChecksStatus)
  | retrier_retry (report : PullRequestChecksStatus)
  | retrier_cleanup
deriving DecidableEq

/-- Observable outcome of `PullRequestProcessor.run`: the in-memory pull
request, whether `db_session.commit()` was reached, the checks passed to
`bulk_save_objects` (after any `last_retried_at` stamping), and the
notifier/retrier calls in order. -/
structure RunResult where
  pr : PullRequest
  committed : Bool
  saved_checks : List Check
  effects : List Effect
deriving DecidableEq

/-- The part of `PullRequestProcessor.run` after the short-circuit:
classification, the four-way dispatch, stamping and persistence. -/
def runBody (cfg : Config) (pr : PullRequest)
    (existing_db_checks : List (String × Check)) (statuses : List GhCheck)
    (new_patch : Bool) (now : Int) : Except String RunResult :=
  let current_gh_checks := fetchCurrentGhChecks statuses
  match updateOrCreateDbChecks cfg pr existing_db_checks current_gh_checks new_patch now with
  | .error e => .error e
  | .ok checks =>
    if checks.too_many_failures ≠ [] then
      .ok ⟨{ pr with status := some "failed" }, true, checks.to_list,
           [.notify_too_many_failures checks, .retrier_cleanup]⟩
    else if checks.retrying ≠ [] then
      let stamped := { checks with
        retrying := checks.retrying.map (fun c : Check => { c with last_retried_at := some now }) }
      .ok ⟨pr, true, stamped.to_list,
           [.notify_retrying checks, .retrier_retry checks]⟩
    else if checks.retry_pending.length + checks.pending.length = 0 then
      .ok ⟨{ pr with status := some "successful" }, true, checks.to_list,
           [.notify_success checks, .retrier_cleanup]⟩
    else
      .ok ⟨pr, true, checks.to_list, []⟩

/-- `PullRequestProcessor.run`: new-patch detection, the idempotence
short-circuit, then `runBody`. -/
def run (cfg : Config) (pr : PullRequest) (head_sha : String)
    (existing_db_checks : List (String × Check)) (statuses : List GhCheck)
    (now : Int) : Except String RunResult :=
  let new_patch := pr.last_processed_sha ≠ some head_sha
  let pr1 := { pr with last_processed_sha := some head_sha }
  if new_patch then
    runBody cfg { pr1 with status := some "pending" } existing_db_checks statuses true now
  else if pr1.status = some "pending" then
    runBody cfg pr1 existing_db_checks statuses false now
  else
    .ok ⟨pr1, false, [], []⟩

/-- Write one check record back into the per-context store (the DB row
keyed by its context). -/
def storeCheck : List (String × Check) → Check → List (String × Check)
  | [], c => [(c.context, c)]
  | (k, v) :: rest, c =>
    if k = c.context then (k, c) :: rest else (k, v) :: storeCheck rest c

/-- `db_session.bulk_save_objects(checks.to_list())`: persist every saved
check into the store. -/
def storeChecks (db : List (String × Check)) (cs : List Check) :
    List (String × Check) :=
  cs.foldl storeCheck db

/-- One driver-level side effect of `Main._cleanup_prs`. -/
inductive MainEffect
  | retrier_cleanup_pr (pr : PullRequest)
  | db_delete (pr : PullRequest)
deriving DecidableEq

/-- `Main._cleanup_prs`: for each no-longer-tracked pull request, invoke
the retrier's cleanup and delete the record. -/
def cleanupPrs : List PullRequest → List MainEffect
  | [] => []
  | pr :: rest => .retrier_cleanup_pr pr :: .db_delete pr :: cleanupPrs rest

/-- Python `dict.pop(slug, None)` on the slug-keyed map of persisted pull
requests: the popped value (if any) and the remaining map. -/
def popSlug : List (String × PullRequest) → String →
    Option PullRequest × List (String × PullRequest)
  | [], _ => (none, [])
  | (k, v) :: rest, slug =>
    if k = slug then (some v, rest)
    else
      let r := popSlug rest slug
      (r.1, (k, v) :: r.2)

/-- `Main._triage_prs`: keep fetched pull requests whose repository is
configured (preferring the persisted record when one exists); everything
left in the persisted map afterwards is slated for cleanup. -/
def triagePrs (cfg : Config) (all_gh_prs : List PullRequest)
    (existing_prs : List (String × PullRequest)) :
    List PullRequest × List PullRequest :=
  match all_gh_prs with
  | [] => ([], existing_prs.map Prod.snd)
  | pr :: rest =>
    match lookupStr cfg.repositories pr.repo with
    | none => triagePrs cfg rest existing_prs
    | some _ =>
      let popped := popSlug existing_prs pr.slug
      let pr' := popped.1.getD pr
      let r := triagePrs cfg rest popped.2
      (pr' :: r.1, r.2)

/-- Modelled from the spec: "a check configured as ignored at any policy
level (global, repository, or check-specific)" — the spec-side ignore
predicate consulting all three levels, to be compared with the source's
`checkIgnored`. -/
def ignoredAtAnyLevelSpec (cfg : Config) (repo ctx : String) : Bool :=
  truthyBool ((checkNodeOf cfg repo ctx).bind CheckConfig.ignore)
    || truthyBool ((lookupStr cfg.repositories repo).bind RepoConfig.ignore)
    || truthyBool cfg.ignore

/-- Modelled from the spec: "taking the first non-empty value in the order
check-level, then repository-level, then global-level configuration,
falling back to the hard-coded defaults" — the spec-side resolution, to be
compared with the source's `resolveMultiLevelConfig`. -/
def resolveFirstNonEmptySpec (cfg : Config) (repo ctx : String) (key : ConfigKey)
    (dflt : Nat) : Nat :=
  ((checkLevelConfig cfg repo ctx key).orElse (fun _ =>
    (repoLevelConfig cfg repo key).orElse (fun _ =>
      rootLevelConfig cfg key))).getD dflt

/-- First truthy (present and non-zero) value in a cascade of optional
configuration values. -/
def firstTruthy : List (Option Nat) → Option Nat
  | [] => none
  | v :: rest => if truthyNat v then v else firstTruthy rest

/-- How many checks with the given context appear across the five buckets. -/
def contextOccurrences (s : PullRequestChecksStatus) (ctx : String) : Nat :=
  s.to_list.countP (fun c => c.context == ctx)

instance exceptDecidableEq {ε α : Type} [DecidableEq ε] [DecidableEq α] :
    DecidableEq (Except ε α) := fun x y =>
  match x, y with
  | .error e, .error f =>
    if h : e = f then .isTrue (by rw [h]) else .isFalse (fun hc => by cases hc; exact h rfl)
  | .ok a, .ok b =>
    if h : a = b then .isTrue (by rw [h]) else .isFalse (fun hc => by cases hc; exact h rfl)
  | .error _, .ok _ => .isFalse (fun hc => by cases hc)
  | .ok _, .error _ => .isFalse (fun hc => by cases hc)

/-! ## Helper lemmas -/

theorem lookupStr_mem {α : Type} {l : List (String × α)} {key : String} {v : α}
    (h : lookupStr l key = some v) : (key, v) ∈ l := by
  induction l with
  | nil => simp [lookupStr] at h
  | cons hd tl ih =>
    obtain ⟨k, w⟩ := hd
    by_cases hk : k = key
    · subst hk
      simp [lookupStr] at h
      subst h
      exact List.mem_cons_self _ _
    · simp [lookupStr, hk] at h
      exact List.mem_cons_of_mem _ (ih h)

/-! ## Claims -/

/-- Claim C4: running `run` a second time when the head revision is
unchanged and the pull request's status is not `pending` terminates
immediately: no classification happens, no notifier or retrier call is
issued, nothing is committed, and the in-memory pull request is unchanged,
so the persisted state stays identical to the state after the first run. -/
theorem C4_idempotence_short_circuit (cfg : Config) (pr : PullRequest)
    (head_sha : String) (existing_db_checks : List (String × Check))
    (statuses : List GhCheck) (now : Int)
    (hsha : pr.last_processed_sha = some head_sha)
    (hstatus : pr.status ≠ some "pending") :
    run cfg pr head_sha existing_db_checks statuses now = .ok ⟨pr, false, [], []⟩ := by
  cases pr with
  | mk repo number sha status =>
    simp only at hsha hstatus
    subst hsha
    unfold run
    simp [hstatus]

theorem C4_witness :
    run {} ⟨"r", 1, some "s", some "failed"⟩ "s" [] [] 0
      = .ok ⟨⟨"r", 1, some "s", some "failed"⟩, false, [], []⟩ :=
  C4_idempotence_short_circuit {} ⟨"r", 1, some "s", some "failed"⟩ "s" [] [] 0
    rfl (by decide)

/-- Claim C5, counterexample: a check whose context is ignored at the
repository policy level (but not at the check-specific level) is NOT
excluded: the code classifies it, places it in the successful bucket, and
creates its Check record. -/
theorem C5_counterexample :
    ignoredAtAnyLevelSpec { repositories := [("r", { ignore := some true })] } "r" "ctx" = true
    ∧ updateOrCreateDbChecks { repositories := [("r", { ignore := some true })] }
        ⟨"r", 1, some "s", some "pending"⟩ [] [⟨"ctx", "success", 1⟩] false 0
      = .ok ⟨[⟨"r", 1, "ctx", 0, none, none⟩], [], [], [], []⟩ := by
  decide

/-- Claim C5 (amended): only the check-specific `ignore` flag excludes a
check; an observation whose context carries a truthy check-level `ignore`
participates in no bucket and neither creates nor mutates a Check record
(the cycle's outcome is as if the observation were absent). -/
theorem C5_amended_check_level_ignored_excluded (cfg : Config) (pr : PullRequest)
    (existing_db_checks : List (String × Check)) (gh : GhCheck)
    (rest : List GhCheck) (new_patch : Bool) (now : Int)
    (h : checkIgnored cfg pr.repo gh.context = true) :
    updateOrCreateDbChecks cfg pr existing_db_checks (gh :: rest) new_patch now
      = updateOrCreateDbChecks cfg pr existing_db_checks rest new_patch now := by
  rw [updateOrCreateDbChecks]
  simp [h]

theorem C5_witness :
    updateOrCreateDbChecks { repositories := [("r", { checks := [("c", { ignore := some true })] })] }
        ⟨"r", 1, some "s", some "pending"⟩ [] [⟨"c", "error", 3⟩] false 0
      = updateOrCreateDbChecks { repositories := [("r", { checks := [("c", { ignore := some true })] })] }
        ⟨"r", 1, some "s", some "pending"⟩ [] [] false 0 :=
  C5_amended_check_level_ignored_excluded
    { repositories := [("r", { checks := [("c", { ignore := some true })] })] }
    ⟨"r", 1, some "s", some "pending"⟩ [] ⟨"c", "error", 3⟩ [] false 0 (by decide)

/-- Claim C8, counterexample: a configured value of 0 is present
(non-empty) but falsy, so the code skips it: with check-level
`max_retries = 0` and repository-level `max_retries = 3`, the code
resolves 3 while the spec's first-non-empty rule yields 0. -/
theorem C8_counterexample :
    resolveMultiLevelConfig
      { repositories := [("r", { checks := [("c", { max_retries := some 0 })],
                                 max_retries := some 3 })] }
      "r" "c" ConfigKey.max_retries DEFAULT_MAX_RETRIES = 3
    ∧ resolveFirstNonEmptySpec
      { repositories := [("r", { checks := [("c", { max_retries := some 0 })],
                                 max_retries := some 3 })] }
      "r" "c" ConfigKey.max_retries DEFAULT_MAX_RETRIES = 0 := by
  decide

/-- Claim C8 (amended): the policy values are resolved by taking the first
truthy (present and non-zero) value in the order check-level, then
repository-level, then global-level, falling back to the hard-coded
defaults of 7 for `max_retries` and 5 minutes for `max_retry_delay`. -/
theorem C8_amended_resolution_order (cfg : Config) (repo ctx : String)
    (key : ConfigKey) (dflt : Nat) :
    resolveMultiLevelConfig cfg repo ctx key dflt
      = (firstTruthy [checkLevelConfig cfg repo ctx key,
          repoLevelConfig cfg repo key, rootLevelConfig cfg key]).getD dflt
    ∧ DEFAULT_MAX_RETRIES = 7 ∧ DEFAULT_MAX_RETRY_DELAY = 5 := by
  refine ⟨?_, rfl, rfl⟩
  simp only [resolveMultiLevelConfig, firstTruthy]
  split_ifs <;> simp

/-- Claim C1: classification of a non-ignored error observation against
its stored Check record at an unchanged revision, under the resolved
`max_retries` and `max_retry_delay`: when the observation's event id
equals the stored `last_errored_id`, the record is not mutated and the
bucket is too-many-failures above the retry budget, retrying when within
budget and out of (or without) cooldown, and retry-pending otherwise;
when the event id differs, the failure count is incremented and
`last_errored_id` updated, the bucket being too-many-failures above
budget and retrying otherwise, with no cooldown gating. -/
theorem C1_error_classification (cfg : Config) (pr : PullRequest)
    (existing_db_checks : List (String × Check)) (gh : GhCheck) (now : Int)
    (c : Check)
    (hlook : lookupStr existing_db_checks gh.context = some c)
    (hstate : gh.state = "error")
    (_hign : checkIgnored cfg pr.repo gh.context = false) :
    (some gh.id = c.last_errored_id →
      (c.failure_count > resolveMultiLevelConfig cfg pr.repo gh.context
          ConfigKey.max_retries DEFAULT_MAX_RETRIES →
        classifyCheck cfg pr existing_db_checks gh false now
          = .ok (c, Bucket.too_many_failures))
      ∧ (c.failure_count ≤ resolveMultiLevelConfig cfg pr.repo gh.context
            ConfigKey.max_retries DEFAULT_MAX_RETRIES →
          c.last_retried_at = none →
          classifyCheck cfg pr existing_db_checks gh false now
            = .ok (c, Bucket.retrying))
      ∧ (∀ t : Int, c.failure_count ≤ resolveMultiLevelConfig cfg pr.repo gh.context
            ConfigKey.max_retries DEFAULT_MAX_RETRIES →
          c.last_retried_at = some t →
          now - t > timedeltaMinutes (resolveMultiLevelConfig cfg pr.repo gh.context
            ConfigKey.max_retry_delay DEFAULT_MAX_RETRY_DELAY) →
          classifyCheck cfg pr existing_db_checks gh false now
            = .ok (c, Bucket.retrying))
      ∧ (∀ t : Int, c.failure_count ≤ resolveMultiLevelConfig cfg pr.repo gh.context
            ConfigKey.max_retries DEFAULT_MAX_RETRIES →
          c.last_retried_at = some t →
          now - t ≤ timedeltaMinutes (resolveMultiLevelConfig cfg pr.repo gh.context
            ConfigKey.max_retry_delay DEFAULT_MAX_RETRY_DELAY) →
          classifyCheck cfg pr existing_db_checks gh false now
            = .ok (c, Bucket.retry_pending)))
    ∧ (some gh.id ≠ c.last_errored_id →
      (c.failure_count + 1 > resolveMultiLevelConfig cfg pr.repo gh.context
          ConfigKey.max_retries DEFAULT_MAX_RETRIES →
        classifyCheck cfg pr existing_db_checks gh false now
          = .ok ({ c with failure_count := c.failure_count + 1,
                          last_errored_id := some gh.id }, Bucket.too_many_failures))
      ∧ (c.failure_count + 1 ≤ resolveMultiLevelConfig cfg pr.repo gh.context
          ConfigKey.max_retries DEFAULT_MAX_RETRIES →
        classifyCheck cfg pr existing_db_checks gh false now
          = .ok ({ c with failure_count := c.failure_count + 1,
                          last_errored_id := some gh.id }, Bucket.retrying))) := by
  unfold classifyCheck
  rw [hlook, hstate]
  refine ⟨fun hid => ⟨fun hgt => ?_, fun hle hnone => ?_,
          fun t hle hsome ht => ?_, fun t hle hsome ht => ?_⟩,
          fun hid => ⟨fun hgt => ?_, fun hle => ?_⟩⟩
  · simp [hid, hgt]
  · simp [hid, not_lt.mpr hle, hnone]
  · simp [hid, not_lt.mpr hle, hsome, ht]
  · simp [hid, not_lt.mpr hle, hsome, not_lt.mpr ht]
  · simp [hid, hgt]
  · simp [hid, not_lt.mpr hle]

theorem C1_witness :
    classifyCheck {} ⟨"r", 1, some "s", some "pending"⟩
      [("b", ⟨"r", 1, "b", 1, some 5, none⟩)] ⟨"b", "error", 5⟩ false 0
      = .ok (⟨"r", 1, "b", 1, some 5, none⟩, Bucket.retrying) :=
  ((C1_error_classification {} ⟨"r", 1, some "s", some "pending"⟩
      [("b", ⟨"r", 1, "b", 1, some 5, none⟩)] ⟨"b", "error", 5⟩ 0
      ⟨"r", 1, "b", 1, some 5, none⟩ (by decide) rfl (by decide)).1 rfl).2.1
    (by decide) rfl

/-- Claim C2, counterexample: at a new revision, a carried-over Check
record whose context is not among the cycle's observations keeps its
non-zero failure count — the reset only happens per observed check, so a
stored record can retain a count from the old revision. -/
theorem C2_counterexample :
    run {} ⟨"r", 1, some "a", some "failed"⟩ "b"
        [("blah", ⟨"r", 1, "blah", 2, some 5, none⟩)] [] 0
      = .ok ⟨⟨"r", 1, some "b", some "successful"⟩, true, [],
             [Effect.notify_success ⟨[], [], [], [], []⟩, Effect.retrier_cleanup]⟩
    ∧ lookupStr (storeChecks [("blah", ⟨"r", 1, "blah", 2, some 5, none⟩)] []) "blah"
      = some ⟨"r", 1, "blah", 2, some 5, none⟩ := by
  decide

/-- Claim C2 (amended): at a new revision the failure-count reset applies,
per check, to every carried-over check that is observed (and not ignored)
in the cycle, immediately before that check is classified: classifying
with the new-patch flag is the same as classifying the stored record with
its failure count already zeroed; records whose contexts are not observed
retain their previous counts. -/
theorem C2_amended_reset_before_classification (cfg : Config) (pr : PullRequest)
    (existing_db_checks : List (String × Check)) (gh : GhCheck) (now : Int)
    (c : Check)
    (hlook : lookupStr existing_db_checks gh.context = some c) :
    classifyCheck cfg pr existing_db_checks gh true now
      = classifyCheck cfg pr [(gh.context, { c with failure_count := 0 })] gh false now := by
  unfold classifyCheck
  rw [hlook]
  simp [lookupStr]

theorem C2_witness :
    classifyCheck {} ⟨"r", 1, some "s", some "pending"⟩
      [("b", ⟨"r", 1, "b", 2, some 5, none⟩)] ⟨"b", "error", 9⟩ true 10
      = classifyCheck {} ⟨"r", 1, some "s", some "pending"⟩
      [("b", ⟨"r", 1, "b", 0, some 5, none⟩)] ⟨"b", "error", 9⟩ false 10 :=
  C2_amended_reset_before_classification {} ⟨"r", 1, some "s", some "pending"⟩
    [("b", ⟨"r", 1, "b", 2, some 5, none⟩)] ⟨"b", "error", 9⟩ 10
    ⟨"r", 1, "b", 2, some 5, none⟩ (by decide)

/-- Claim C6, counterexample: a check placed in retry-pending (cooldown
active, `last_retried_at = 1000`) re-enters the retrying bucket in the
next cycle at `now = 1200` — still within the 5-minute (300-second)
cooldown — because the new cycle observes a fresh failure event id, which
bypasses the cooldown gate. -/
theorem C6_counterexample :
    updateOrCreateDbChecks {} ⟨"r", 1, some "s", some "pending"⟩
        [("blah", ⟨"r", 1, "blah", 1, some 5, some 1000⟩)] [⟨"blah", "error", 5⟩] false 1100
      = .ok ⟨[], [], [], [⟨"r", 1, "blah", 1, some 5, some 1000⟩], []⟩
    ∧ run {} ⟨"r", 1, some "s", some "pending"⟩ "s"
        [("blah", ⟨"r", 1, "blah", 1, some 5, some 1000⟩)] [⟨"blah", "error", 5⟩] 1100
      = .ok ⟨⟨"r", 1, some "s", some "pending"⟩, true,
             [⟨"r", 1, "blah", 1, some 5, some 1000⟩], []⟩
    ∧ storeChecks [("blah", ⟨"r", 1, "blah", 1, some 5, some 1000⟩)]
        [⟨"r", 1, "blah", 1, some 5, some 1000⟩]
      = [("blah", ⟨"r", 1, "blah", 1, some 5, some 1000⟩)]
    ∧ updateOrCreateDbChecks {} ⟨"r", 1, some "s", some "pending"⟩
        [("blah", ⟨"r", 1, "blah", 1, some 5, some 1000⟩)] [⟨"blah", "error", 6⟩] false 1200
      = .ok ⟨[], [], [⟨"r", 1, "blah", 2, some 6, some 1000⟩], [], []⟩
    ∧ ((1200 : Int) - 1000 ≤ timedeltaMinutes DEFAULT_MAX_RETRY_DELAY) := by
  decide

/-- Claim C6 (amended): for every configured `max_retry_delay`, a check
observed with the same failure event id as its stored
`last_errored_id` is never bucketed retrying while
`now - last_retried_at ≤ max_retry_delay`; since retry-pending checks are
not re-stamped, a retry-pending check re-enters retrying within cooldown
only when a brand-new failure event id is observed. -/
theorem C6_amended_cooldown_gating (cfg : Config) (pr : PullRequest)
    (existing_db_checks : List (String × Check)) (gh : GhCheck)
    (new_patch : Bool) (now : Int) (c : Check) (t : Int)
    (hlook : lookupStr existing_db_checks gh.context = some c)
    (hstate : gh.state = "error")
    (hid : some gh.id = c.last_errored_id)
    (hlr : c.last_retried_at = some t)
    (hcool : now - t ≤ timedeltaMinutes (resolveMultiLevelConfig cfg pr.repo gh.context
        ConfigKey.max_retry_delay DEFAULT_MAX_RETRY_DELAY)) :
    ∀ c' : Check, classifyCheck cfg pr existing_db_checks gh new_patch now
      ≠ .ok (c', Bucket.retrying) := by
  intro c'
  unfold classifyCheck
  rw [hlook, hstate]
  cases new_patch with
  | false =>
    by_cases hgt : c.failure_count > resolveMultiLevelConfig cfg pr.repo gh.context
        ConfigKey.max_retries DEFAULT_MAX_RETRIES
    · simp [hid, hgt]
    · simp [hid, hgt, hlr, not_lt.mpr hcool]
  | true =>
    by_cases hgt : (0 : Nat) > resolveMultiLevelConfig cfg pr.repo gh.context
        ConfigKey.max_retries DEFAULT_MAX_RETRIES
    · simp [hid, hgt]
    · simp [hid, hgt, hlr, not_lt.mpr hcool]

theorem C6_witness :
    classifyCheck {} ⟨"r", 1, some "s", some "pending"⟩
      [("blah", ⟨"r", 1, "blah", 1, some 5, some 1000⟩)] ⟨"blah", "error", 5⟩ false 1100
      ≠ .ok (⟨"r", 1, "blah", 1, some 5, some 1000⟩, Bucket.retrying) :=
  C6_amended_cooldown_gating {} ⟨"r", 1, some "s", some "pending"⟩
    [("blah", ⟨"r", 1, "blah", 1, some 5, some 1000⟩)] ⟨"blah", "error", 5⟩ false 1100
    ⟨"r", 1, "blah", 1, some 5, some 1000⟩ 1000 (by decide) rfl rfl rfl (by decide)
    ⟨"r", 1, "blah", 1, some 5, some 1000⟩

theorem classifyCheck_ok_of_known (cfg : Config) (pr : PullRequest)
    (existing : List (String × Check)) (gh : GhCheck) (new_patch : Bool) (now : Int)
    (h : gh.state = "error" ∨ gh.state = "pending" ∨ gh.state = "success") :
    ∃ cb, classifyCheck cfg pr existing gh new_patch now = .ok cb := by
  unfold classifyCheck
  rcases h with h | h | h <;> rw [h] <;> simp only [reduceIte] <;>
    repeat' first
      | exact ⟨_, rfl⟩
      | split

theorem classifyCheck_error_of_unknown (cfg : Config) (pr : PullRequest)
    (existing : List (String × Check)) (gh : GhCheck) (new_patch : Bool) (now : Int)
    (h1 : gh.state ≠ "error") (h2 : gh.state ≠ "pending") (h3 : gh.state ≠ "success") :
    classifyCheck cfg pr existing gh new_patch now
      = .error (classifyCheck.unknownStatusMessage gh.state gh.context pr.repo pr.number) := by
  unfold classifyCheck
  simp [h1, h2, h3]

theorem uoc_first_unknown (cfg : Config) (pr : PullRequest)
    (existing : List (String × Check)) (new_patch : Bool) (now : Int)
    (ghs : List GhCheck) :
    match ghs.find? (fun gh => !(checkIgnored cfg pr.repo gh.context)
        && !(gh.state == "error" || gh.state == "pending" || gh.state == "success")) with
    | some gh => updateOrCreateDbChecks cfg pr existing ghs new_patch now
        = .error (classifyCheck.unknownStatusMessage gh.state gh.context pr.repo pr.number)
    | none => ∃ s, updateOrCreateDbChecks cfg pr existing ghs new_patch now = .ok s := by
  set p : GhCheck → Bool := fun gh => !(checkIgnored cfg pr.repo gh.context)
    && !(gh.state == "error" || gh.state == "pending" || gh.state == "success") with hp
  induction ghs with
  | nil => exact ⟨emptyChecksStatus, rfl⟩
  | cons gh rest ih =>
    by_cases hig : checkIgnored cfg pr.repo gh.context = true
    · have huoc : updateOrCreateDbChecks cfg pr existing (gh :: rest) new_patch now
          = updateOrCreateDbChecks cfg pr existing rest new_patch now := by
        rw [updateOrCreateDbChecks, if_pos hig]
      have hpredI : p gh = false := by
        rw [hp]; simp [hig]
      rw [List.find?_cons_of_neg rest (fun hcon => Bool.false_ne_true (hpredI.symm.trans hcon)),
        huoc]
      exact ih
    · have hig' : checkIgnored cfg pr.repo gh.context = false := by
        simpa using hig
      by_cases hbad : gh.state = "error" ∨ gh.state = "pending" ∨ gh.state = "success"
      · obtain ⟨⟨c, b⟩, hcb⟩ := classifyCheck_ok_of_known cfg pr existing gh new_patch now hbad
        have hpred : p gh = false := by
          rw [hp]; rcases hbad with h | h | h <;> simp [h]
        have huoc : updateOrCreateDbChecks cfg pr existing (gh :: rest) new_patch now
            = match updateOrCreateDbChecks cfg pr existing rest new_patch now with
              | .error e => .error e
              | .ok s => .ok (addToBucket s b c) := by
          rw [updateOrCreateDbChecks, if_neg (by simp [hig']), hcb]
        rw [List.find?_cons_of_neg rest (fun hcon => Bool.false_ne_true (hpred.symm.trans hcon))]
        cases hfind : rest.find? p with
        | some gh' =>
          simp only [hfind] at ih
          show updateOrCreateDbChecks cfg pr existing (gh :: rest) new_patch now
            = .error (classifyCheck.unknownStatusMessage gh'.state gh'.context pr.repo pr.number)
          rw [huoc, ih]
        | none =>
          simp only [hfind] at ih
          obtain ⟨s, hs⟩ := ih
          show ∃ s, updateOrCreateDbChecks cfg pr existing (gh :: rest) new_patch now = .ok s
          rw [huoc, hs]
          exact ⟨_, rfl⟩
      · push_neg at hbad
        obtain ⟨h1, h2, h3⟩ := hbad
        have hpred : p gh = true := by
          rw [hp]; simp [hig', h1, h2, h3]
        rw [List.find?_cons_of_pos rest hpred]
        show updateOrCreateDbChecks cfg pr existing (gh :: rest) new_patch now
          = .error (classifyCheck.unknownStatusMessage gh.state gh.context pr.repo pr.number)
        rw [updateOrCreateDbChecks, if_neg (by simp [hig']),
            classifyCheck_error_of_unknown cfg pr existing gh new_patch now h1 h2 h3]

theorem runBody_first_unknown (cfg : Config) (pr : PullRequest)
    (existing : List (String × Check)) (statuses : List GhCheck)
    (new_patch : Bool) (now : Int) :
    match (fetchCurrentGhChecks statuses).find? (fun gh => !(checkIgnored cfg pr.repo gh.context)
        && !(gh.state == "error" || gh.state == "pending" || gh.state == "success")) with
    | some gh => runBody cfg pr existing statuses new_patch now
        = .error (classifyCheck.unknownStatusMessage gh.state gh.context pr.repo pr.number)
    | none => ∃ r, runBody cfg pr existing statuses new_patch now = .ok r := by
  have h := uoc_first_unknown cfg pr existing new_patch now (fetchCurrentGhChecks statuses)
  cases hfind : (fetchCurrentGhChecks statuses).find? (fun gh =>
      !(checkIgnored cfg pr.repo gh.context)
      && !(gh.state == "error" || gh.state == "pending" || gh.state == "success")) with
  | some gh =>
    simp only [hfind] at h
    show runBody cfg pr existing statuses new_patch now
      = .error (classifyCheck.unknownStatusMessage gh.state gh.context pr.repo pr.number)
    simp only [runBody]
    rw [h]
  | none =>
    simp only [hfind] at h
    obtain ⟨s, hs⟩ := h
    show ∃ r, runBody cfg pr existing statuses new_patch now = .ok r
    simp only [runBody, hs]
    split_ifs <;> exact ⟨_, rfl⟩

/-- Claim C9: the cycle's classification aborts with the fatal
`RuntimeError` naming the check and pull request — leaving no state
persisted for this cycle, since the error propagates before any save — if
and only if some non-ignored deduplicated observation carries a state
outside success/pending/error; the error names the first such
observation. -/
theorem C9_unknown_state_fatal (cfg : Config) (pr : PullRequest) (head_sha : String)
    (existing : List (String × Check)) (statuses : List GhCheck) (now : Int)
    (hreach : pr.last_processed_sha ≠ some head_sha ∨ pr.status = some "pending") :
    match (fetchCurrentGhChecks statuses).find? (fun gh => !(checkIgnored cfg pr.repo gh.context)
        && !(gh.state == "error" || gh.state == "pending" || gh.state == "success")) with
    | some gh => run cfg pr head_sha existing statuses now
        = .error (classifyCheck.unknownStatusMessage gh.state gh.context pr.repo pr.number)
    | none => ∃ r, run cfg pr head_sha existing statuses now = .ok r := by
  by_cases hnp : pr.last_processed_sha = some head_sha
  · have hstatus : pr.status = some "pending" := hreach.resolve_left (by simp [hnp])
    have hrun : run cfg pr head_sha existing statuses now
        = runBody cfg { pr with last_processed_sha := some head_sha }
            existing statuses false now := by
      simp only [run]
      rw [if_neg (by simp [hnp]), if_pos (by simpa using hstatus)]
    rw [hrun]
    exact runBody_first_unknown cfg { pr with last_processed_sha := some head_sha }
      existing statuses false now
  · have hrun : run cfg pr head_sha existing statuses now
        = runBody cfg { pr with last_processed_sha := some head_sha, status := some "pending" }
            existing statuses true now := by
      simp only [run]
      rw [if_pos hnp]
    rw [hrun]
    exact runBody_first_unknown cfg
      { pr with last_processed_sha := some head_sha, status := some "pending" }
      existing statuses true now

theorem C9_witness :
    run {} ⟨"r", 1, some "s", some "pending"⟩ "s" [] [⟨"c", "weird", 4⟩] 0
      = .error (classifyCheck.unknownStatusMessage "weird" "c" "r" 1) :=
  C9_unknown_state_fatal {} ⟨"r", 1, some "s", some "pending"⟩ "s" [] [⟨"c", "weird", 4⟩] 0
    (Or.inr rfl)

/-- Claim C3: in every evaluation cycle that reaches classification,
exactly one of four outcomes occurs, decided in strict priority order:
non-empty too-many-failures makes the status failed with the
too-many-failures notification then retrier cleanup; otherwise non-empty
retrying notifies retrying and invokes the retrier's retry with the full
bucket report, and `last_retried_at` is stamped to `now` on every
retrying check and no other, only after the retry call (the retry call
sees the unstamped report); otherwise empty pending and retry-pending
makes the status successful with the success notification then cleanup;
otherwise the status is left alone and no notifier or retrier call is
made. -/
theorem C3_dispatch_priority (cfg : Config) (pr : PullRequest)
    (existing : List (String × Check)) (statuses : List GhCheck)
    (new_patch : Bool) (now : Int) (checks : PullRequestChecksStatus)
    (hcls : updateOrCreateDbChecks cfg pr existing (fetchCurrentGhChecks statuses)
        new_patch now = .ok checks) :
    (checks.too_many_failures ≠ [] →
      runBody cfg pr existing statuses new_patch now
        = .ok ⟨{ pr with status := some "failed" }, true, checks.to_list,
               [Effect.notify_too_many_failures checks, Effect.retrier_cleanup]⟩)
    ∧ (checks.too_many_failures = [] → checks.retrying ≠ [] →
      runBody cfg pr existing statuses new_patch now
        = .ok ⟨pr, true,
               checks.successful ++ checks.pending
                 ++ checks.retrying.map (fun c : Check => { c with last_retried_at := some now })
                 ++ checks.retry_pending ++ checks.too_many_failures,
               [Effect.notify_retrying checks, Effect.retrier_retry checks]⟩)
    ∧ (checks.too_many_failures = [] → checks.retrying = [] →
       checks.retry_pending = [] → checks.pending = [] →
      runBody cfg pr existing statuses new_patch now
        = .ok ⟨{ pr with status := some "successful" }, true, checks.to_list,
               [Effect.notify_success checks, Effect.retrier_cleanup]⟩)
    ∧ (checks.too_many_failures = [] → checks.retrying = [] →
       checks.retry_pending ++ checks.pending ≠ [] →
      runBody cfg pr existing statuses new_patch now
        = .ok ⟨pr, true, checks.to_list, []⟩) := by
  refine ⟨fun h1 => ?_, fun h1 h2 => ?_, fun h1 h2 h3 h4 => ?_, fun h1 h2 h34 => ?_⟩ <;>
    simp only [runBody, hcls]
  · rw [if_pos h1]
  · rw [if_neg (by simp [h1]), if_pos h2]
    rfl
  · rw [if_neg (by simp [h1]), if_neg (by simp [h2]), if_pos (by simp [h3, h4])]
  · have hlen : checks.retry_pending.length + checks.pending.length ≠ 0 := by
      intro h0
      apply h34
      have h3 : checks.retry_pending = [] := List.length_eq_zero.mp (by omega)
      have h4 : checks.pending = [] := List.length_eq_zero.mp (by omega)
      rw [h3, h4]
      rfl
    rw [if_neg (by simp [h1]), if_neg (by simp [h2]), if_neg hlen]

theorem C3_witness :
    runBody {} ⟨"r", 1, some "s", some "pending"⟩ [] [⟨"a", "success", 1⟩] false 0
      = .ok ⟨⟨"r", 1, some "s", some "successful"⟩, true, [⟨"r", 1, "a", 0, none, none⟩],
             [Effect.notify_success ⟨[⟨"r", 1, "a", 0, none, none⟩], [], [], [], []⟩,
              Effect.retrier_cleanup]⟩ :=
  (C3_dispatch_priority {} ⟨"r", 1, some "s", some "pending"⟩ [] [⟨"a", "success", 1⟩]
      false 0 ⟨[⟨"r", 1, "a", 0, none, none⟩], [], [], [], []⟩
      (by decide)).2.2.1 rfl rfl rfl rfl

theorem fetchAux_mem {statuses : List GhCheck} {seen : List String} {gh : GhCheck}
    (h : gh ∈ fetchCurrentGhChecksAux statuses seen) :
    gh ∈ statuses ∧ gh.context ∉ seen := by
  induction statuses generalizing seen with
  | nil => simp [fetchCurrentGhChecksAux] at h
  | cons s rest ih =>
    by_cases hs : s.context ∈ seen
    · rw [fetchCurrentGhChecksAux, if_pos hs] at h
      obtain ⟨hmem, hns⟩ := ih h
      exact ⟨List.mem_cons_of_mem _ hmem, hns⟩
    · rw [fetchCurrentGhChecksAux, if_neg hs] at h
      rcases List.mem_cons.mp h with h | h
      · subst h
        exact ⟨List.mem_cons_self _ _, hs⟩
      · obtain ⟨hmem, hns⟩ := ih h
        exact ⟨List.mem_cons_of_mem _ hmem,
          fun hc => hns (List.mem_cons_of_mem _ hc)⟩

theorem fetchAux_nodup (statuses : List GhCheck) (seen : List String) :
    ((fetchCurrentGhChecksAux statuses seen).map GhCheck.context).Nodup := by
  induction statuses generalizing seen with
  | nil => simp [fetchCurrentGhChecksAux]
  | cons s rest ih =>
    by_cases hs : s.context ∈ seen
    · rw [fetchCurrentGhChecksAux, if_pos hs]
      exact ih seen
    · rw [fetchCurrentGhChecksAux, if_neg hs]
      rw [List.map_cons, List.nodup_cons]
      refine ⟨?_, ih (s.context :: seen)⟩
      intro hmem
      obtain ⟨gh, hgh, hctx⟩ := List.mem_map.mp hmem
      exact (fetchAux_mem hgh).2 (by rw [hctx]; exact List.mem_cons_self _ _)

theorem fetchAux_first {statuses : List GhCheck} {seen : List String} {gh : GhCheck}
    (h : gh ∈ fetchCurrentGhChecksAux statuses seen) :
    statuses.find? (fun x => x.context == gh.context) = some gh := by
  set p : GhCheck → Bool := fun x => x.context == gh.context with hp
  induction statuses generalizing seen with
  | nil => simp [fetchCurrentGhChecksAux] at h
  | cons s rest ih =>
    by_cases hs : s.context ∈ seen
    · rw [fetchCurrentGhChecksAux, if_pos hs] at h
      have hne : ¬ p s = true := by
        rw [hp]
        simp only [beq_iff_eq]
        intro he
        exact (fetchAux_mem h).2 (by rw [← he]; exact hs)
      rw [List.find?_cons_of_neg rest hne]
      exact ih h
    · rw [fetchCurrentGhChecksAux, if_neg hs] at h
      rcases List.mem_cons.mp h with h | h
      · subst h
        have hps : p gh = true := by rw [hp]; simp
        rw [List.find?_cons_of_pos rest hps]
      · have hgs : gh.context ∉ s.context :: seen := (fetchAux_mem h).2
        have hne : ¬ p s = true := by
          rw [hp]
          simp only [beq_iff_eq]
          intro he
          exact hgs (by rw [← he]; exact List.mem_cons_self _ _)
        rw [List.find?_cons_of_neg rest hne]
        exact ih h

theorem fetchAux_covers {statuses : List GhCheck} {seen : List String} {x : GhCheck}
    (hx : x ∈ statuses) (hns : x.context ∉ seen) :
    ∃ gh ∈ fetchCurrentGhChecksAux statuses seen, gh.context = x.context := by
  induction statuses generalizing seen with
  | nil => cases hx
  | cons s rest ih =>
    by_cases hs : s.context ∈ seen
    · rw [fetchCurrentGhChecksAux, if_pos hs]
      rcases List.mem_cons.mp hx with h | h
      · exact absurd (by rw [h]; exact hs) hns
      · exact ih h hns
    · rw [fetchCurrentGhChecksAux, if_neg hs]
      by_cases heq : x.context = s.context
      · exact ⟨s, List.mem_cons_self _ _, heq.symm⟩
      · rcases List.mem_cons.mp hx with h | h
        · exact absurd (by rw [h]) heq
        · obtain ⟨gh, hgh, hctx⟩ := ih h (by
            intro hc
            rcases List.mem_cons.mp hc with hc | hc
            · exact heq hc
            · exact hns hc)
          exact ⟨gh, List.mem_cons_of_mem _ hgh, hctx⟩

theorem addToBucket_countP (s : PullRequestChecksStatus) (b : Bucket) (c : Check)
    (q : Check → Bool) :
    (addToBucket s b c).to_list.countP q
      = s.to_list.countP q + (if q c then 1 else 0) := by
  cases b <;>
    simp [addToBucket, PullRequestChecksStatus.to_list, List.countP_append,
      List.countP_cons] <;>
    omega

theorem addToBucket_mem (s : PullRequestChecksStatus) (b : Bucket) (c : Check)
    (x : Check) :
    x ∈ (addToBucket s b c).to_list ↔ x = c ∨ x ∈ s.to_list := by
  cases b <;>
    simp [addToBucket, PullRequestChecksStatus.to_list, List.mem_append,
      List.mem_cons] <;>
    tauto

theorem classifyCheck_context {cfg : Config} {pr : PullRequest}
    {existing : List (String × Check)} {gh : GhCheck} {new_patch : Bool} {now : Int}
    {c : Check} {b : Bucket}
    (hwf : ∀ e ∈ existing, (Prod.snd e).context = e.1)
    (h : classifyCheck cfg pr existing gh new_patch now = .ok (c, b)) :
    c.context = gh.context := by
  unfold classifyCheck at h
  cases hl : lookupStr existing gh.context with
  | none =>
    simp only [hl] at h
    repeat' split at h
    all_goals cases h
    all_goals rfl
  | some c1 =>
    have hc1 : c1.context = gh.context := hwf (gh.context, c1) (lookupStr_mem hl)
    simp only [hl] at h
    repeat' split at h
    all_goals cases h
    all_goals exact hc1

theorem uoc_to_list_context (cfg : Config) (pr : PullRequest)
    (existing : List (String × Check)) (new_patch : Bool) (now : Int)
    (hwf : ∀ e ∈ existing, (Prod.snd e).context = e.1) :
    ∀ (ghs : List GhCheck) (s : PullRequestChecksStatus),
      updateOrCreateDbChecks cfg pr existing ghs new_patch now = .ok s →
      ∀ x ∈ s.to_list, ∃ gh ∈ ghs, x.context = gh.context := by
  intro ghs
  induction ghs with
  | nil =>
    intro s hs x hx
    cases hs
    simp [emptyChecksStatus, PullRequestChecksStatus.to_list] at hx
  | cons gh0 rest ih =>
    intro s hs x hx
    rw [updateOrCreateDbChecks] at hs
    by_cases hig : checkIgnored cfg pr.repo gh0.context = true
    · rw [if_pos hig] at hs
      obtain ⟨gh', hgh', hctx⟩ := ih s hs x hx
      exact ⟨gh', List.mem_cons_of_mem _ hgh', hctx⟩
    · rw [if_neg hig] at hs
      cases hcl : classifyCheck cfg pr existing gh0 new_patch now with
      | error e =>
        simp only [hcl] at hs
        cases hs
      | ok cb =>
        obtain ⟨c, b⟩ := cb
        simp only [hcl] at hs
        cases huoc : updateOrCreateDbChecks cfg pr existing rest new_patch now with
        | error e =>
          simp only [huoc] at hs
          cases hs
        | ok s' =>
          simp only [huoc] at hs
          cases hs
          rcases (addToBucket_mem s' b c x).mp hx with hxc | hxs
          · subst hxc
            exact ⟨gh0, List.mem_cons_self _ _, classifyCheck_context hwf hcl⟩
          · obtain ⟨gh', hgh', hctx⟩ := ih s' huoc x hxs
            exact ⟨gh', List.mem_cons_of_mem _ hgh', hctx⟩

theorem uoc_context_count (cfg : Config) (pr : PullRequest)
    (existing : List (String × Check)) (new_patch : Bool) (now : Int)
    (hwf : ∀ e ∈ existing, (Prod.snd e).context = e.1) :
    ∀ (ghs : List GhCheck) (s : PullRequestChecksStatus),
      (ghs.map GhCheck.context).Nodup →
      updateOrCreateDbChecks cfg pr existing ghs new_patch now = .ok s →
      ∀ gh ∈ ghs, checkIgnored cfg pr.repo gh.context = false →
        contextOccurrences s gh.context = 1 := by
  intro ghs
  induction ghs with
  | nil =>
    intro s _ _ gh hgh
    cases hgh
  | cons gh0 rest ih =>
    intro s hnd hs gh hgh hni
    rw [List.map_cons, List.nodup_cons] at hnd
    obtain ⟨hnd0, hndr⟩ := hnd
    rw [updateOrCreateDbChecks] at hs
    by_cases hig : checkIgnored cfg pr.repo gh0.context = true
    · rw [if_pos hig] at hs
      rcases List.mem_cons.mp hgh with h | h
      · rw [h] at hni
        rw [hni] at hig
        cases hig
      · exact ih s hndr hs gh h hni
    · rw [if_neg hig] at hs
      cases hcl : classifyCheck cfg pr existing gh0 new_patch now with
      | error e =>
        simp only [hcl] at hs
        cases hs
      | ok cb =>
        obtain ⟨c, b⟩ := cb
        simp only [hcl] at hs
        cases huoc : updateOrCreateDbChecks cfg pr existing rest new_patch now with
        | error e =>
          simp only [huoc] at hs
          cases hs
        | ok s' =>
          simp only [huoc] at hs
          cases hs
          have hcctx : c.context = gh0.context := classifyCheck_context hwf hcl
          rcases List.mem_cons.mp hgh with h | h
          · subst h
            have hzero : s'.to_list.countP (fun x => x.context == gh.context) = 0 := by
              rw [List.countP_eq_zero]
              intro x hx
              obtain ⟨gh', hgh', hctx⟩ := uoc_to_list_context cfg pr existing new_patch now
                hwf rest s' huoc x hx
              simp only [beq_iff_eq]
              intro he
              apply hnd0
              rw [← he, hctx]
              exact List.mem_map.mpr ⟨gh', hgh', rfl⟩
            rw [contextOccurrences, addToBucket_countP, hzero]
            simp [hcctx]
          · have h1 := ih s' hndr huoc gh h hni
            have hne : (c.context == gh.context) = false := by
              rw [hcctx]
              simp only [beq_eq_false_iff_ne, ne_eq]
              intro he
              apply hnd0
              rw [he]
              exact List.mem_map.mpr ⟨gh, h, rfl⟩
            rw [contextOccurrences] at h1
            rw [contextOccurrences, addToBucket_countP, h1]
            simp [hne]

/-- Claim C7: remote observations are deduplicated by context — the kept
list has pairwise-distinct contexts, each kept observation is the first
(most-recent) occurrence of its context in the raw list, and every
observed context is represented — and, after deduplication, every
non-ignored observed check appears in exactly one of the five buckets:
across the whole bucket report there is exactly one check carrying its
context. -/
theorem C7_dedup_and_bucket_exclusivity (cfg : Config) (pr : PullRequest)
    (existing : List (String × Check)) (statuses : List GhCheck)
    (new_patch : Bool) (now : Int) (s : PullRequestChecksStatus)
    (hwf : ∀ e ∈ existing, (Prod.snd e).context = e.1)
    (hok : updateOrCreateDbChecks cfg pr existing (fetchCurrentGhChecks statuses)
        new_patch now = .ok s) :
    ((fetchCurrentGhChecks statuses).map GhCheck.context).Nodup
    ∧ (∀ gh ∈ fetchCurrentGhChecks statuses,
        statuses.find? (fun x => x.context == gh.context) = some gh)
    ∧ (∀ x ∈ statuses, ∃ gh ∈ fetchCurrentGhChecks statuses, gh.context = x.context)
    ∧ (∀ gh ∈ fetchCurrentGhChecks statuses,
        checkIgnored cfg pr.repo gh.context = false →
        contextOccurrences s gh.context = 1) :=
  ⟨fetchAux_nodup statuses [],
   fun _ hgh => fetchAux_first hgh,
   fun _ hx => fetchAux_covers hx (by simp),
   fun gh hgh hni => uoc_context_count cfg pr existing new_patch now hwf
     (fetchCurrentGhChecks statuses) s (fetchAux_nodup statuses []) hok gh hgh hni⟩

theorem C7_witness :
    (((fetchCurrentGhChecks [⟨"a", "success", 1⟩, ⟨"a", "error", 2⟩, ⟨"b", "pending", 3⟩]).map
        GhCheck.context).Nodup
    ∧ (∀ gh ∈ fetchCurrentGhChecks [⟨"a", "success", 1⟩, ⟨"a", "error", 2⟩, ⟨"b", "pending", 3⟩],
        ([⟨"a", "success", 1⟩, ⟨"a", "error", 2⟩, ⟨"b", "pending", 3⟩] : List GhCheck).find?
          (fun x => x.context == gh.context) = some gh)
    ∧ (∀ x ∈ ([⟨"a", "success", 1⟩, ⟨"a", "error", 2⟩, ⟨"b", "pending", 3⟩] : List GhCheck),
        ∃ gh ∈ fetchCurrentGhChecks [⟨"a", "success", 1⟩, ⟨"a", "error", 2⟩, ⟨"b", "pending", 3⟩],
          gh.context = x.context)
    ∧ (∀ gh ∈ fetchCurrentGhChecks [⟨"a", "success", 1⟩, ⟨"a", "error", 2⟩, ⟨"b", "pending", 3⟩],
        checkIgnored {} "r" gh.context = false →
        contextOccurrences ⟨[⟨"r", 1, "a", 0, none, none⟩], [⟨"r", 1, "b", 0, none, none⟩], [], [], []⟩
          gh.context = 1)) :=
  C7_dedup_and_bucket_exclusivity {} ⟨"r", 1, some "s", some "pending"⟩ []
    [⟨"a", "success", 1⟩, ⟨"a", "error", 2⟩, ⟨"b", "pending", 3⟩] false 0
    ⟨[⟨"r", 1, "a", 0, none, none⟩], [⟨"r", 1, "b", 0, none, none⟩], [], [], []⟩
    (by simp) (by decide)

theorem popSlug_snd_subset {m : List (String × PullRequest)} {slug : String}
    {e : String × PullRequest} (h : e ∈ (popSlug m slug).2) : e ∈ m := by
  induction m with
  | nil => simp [popSlug] at h
  | cons kv rest ih =>
    obtain ⟨k1, v1⟩ := kv
    by_cases hk : k1 = slug
    · simp only [popSlug, if_pos hk] at h
      exact List.mem_cons_of_mem _ h
    · simp only [popSlug, if_neg hk] at h
      rcases List.mem_cons.mp h with h | h
      · rw [h]; exact List.mem_cons_self _ _
      · exact List.mem_cons_of_mem _ (ih h)

theorem popSlug_preserve {m : List (String × PullRequest)} {slug k : String}
    {v : PullRequest} (hmem : (k, v) ∈ m) (hne : k ≠ slug) :
    (k, v) ∈ (popSlug m slug).2 := by
  induction m with
  | nil => cases hmem
  | cons kv rest ih =>
    obtain ⟨k1, v1⟩ := kv
    by_cases hk : k1 = slug
    · simp only [popSlug, if_pos hk]
      rcases List.mem_cons.mp hmem with h | h
      · rw [Prod.mk.injEq] at h
        exact absurd (h.1.trans hk) hne
      · exact h
    · simp only [popSlug, if_neg hk]
      rcases List.mem_cons.mp hmem with h | h
      · rw [h]; exact List.mem_cons_self _ _
      · exact List.mem_cons_of_mem _ (ih h)

theorem popSlug_val {m : List (String × PullRequest)} {slug : String} {p : PullRequest}
    (h : (popSlug m slug).1 = some p) : (slug, p) ∈ m := by
  induction m with
  | nil => simp [popSlug] at h
  | cons kv rest ih =>
    obtain ⟨k1, v1⟩ := kv
    by_cases hk : k1 = slug
    · simp only [popSlug, if_pos hk] at h
      cases h
      subst hk
      exact List.mem_cons_self _ _
    · simp only [popSlug, if_neg hk] at h
      exact List.mem_cons_of_mem _ (ih h)

theorem triagePrs_process_configured (cfg : Config) :
    ∀ (all : List PullRequest) (existing : List (String × PullRequest)),
      (∀ e ∈ existing, (Prod.snd e).slug = e.1) →
      ∀ q ∈ (triagePrs cfg all existing).1,
        ∃ q0 ∈ all, lookupStr cfg.repositories q0.repo ≠ none ∧ q.slug = q0.slug := by
  intro all
  induction all with
  | nil =>
    intro existing _ q hq
    simp [triagePrs] at hq
  | cons pr rest ih =>
    intro existing hwf q hq
    cases hcfg : lookupStr cfg.repositories pr.repo with
    | none =>
      simp only [triagePrs, hcfg] at hq
      obtain ⟨q0, hq0, hc, hs⟩ := ih existing hwf q hq
      exact ⟨q0, List.mem_cons_of_mem _ hq0, hc, hs⟩
    | some rc =>
      simp only [triagePrs, hcfg] at hq
      rcases List.mem_cons.mp hq with h | h
      · cases hpop : (popSlug existing pr.slug).1 with
        | none =>
          rw [hpop] at h
          refine ⟨pr, List.mem_cons_self _ _, by rw [hcfg]; exact Option.some_ne_none rc, ?_⟩
          rw [h]
          rfl
        | some p =>
          rw [hpop] at h
          have hps : p.slug = pr.slug := hwf (pr.slug, p) (popSlug_val hpop)
          refine ⟨pr, List.mem_cons_self _ _, by rw [hcfg]; exact Option.some_ne_none rc, ?_⟩
          rw [h]
          exact hps
      · obtain ⟨q0, hq0, hc, hs⟩ := ih (popSlug existing pr.slug).2
          (fun e he => hwf e (popSlug_snd_subset he)) q h
        exact ⟨q0, List.mem_cons_of_mem _ hq0, hc, hs⟩

theorem triagePrs_cleanup_keeps (cfg : Config) :
    ∀ (all : List PullRequest) (existing : List (String × PullRequest))
      (s : String) (p : PullRequest),
      (s, p) ∈ existing →
      (∀ q ∈ all, lookupStr cfg.repositories q.repo = none ∨ q.slug ≠ s) →
      p ∈ (triagePrs cfg all existing).2 := by
  intro all
  induction all with
  | nil =>
    intro existing s p hmem _
    simp only [triagePrs]
    exact List.mem_map.mpr ⟨(s, p), hmem, rfl⟩
  | cons pr rest ih =>
    intro existing s p hmem hcond
    cases hcfg : lookupStr cfg.repositories pr.repo with
    | none =>
      simp only [triagePrs, hcfg]
      exact ih existing s p hmem (fun q hq => hcond q (List.mem_cons_of_mem _ hq))
    | some rc =>
      simp only [triagePrs, hcfg]
      have hne : pr.slug ≠ s := by
        rcases hcond pr (List.mem_cons_self _ _) with h | h
        · rw [hcfg] at h; cases h
        · exact h
      exact ih (popSlug existing pr.slug).2 s p
        (popSlug_preserve hmem (fun he => hne he.symm))
        (fun q hq => hcond q (List.mem_cons_of_mem _ hq))

theorem cleanupPrs_effects {to_cleanup : List PullRequest} {p : PullRequest}
    (h : p ∈ to_cleanup) :
    MainEffect.retrier_cleanup_pr p ∈ cleanupPrs to_cleanup
    ∧ MainEffect.db_delete p ∈ cleanupPrs to_cleanup := by
  induction to_cleanup with
  | nil => cases h
  | cons q rest ih =>
    rcases List.mem_cons.mp h with h | h
    · rw [h]
      exact ⟨List.mem_cons_self _ _, List.mem_cons_of_mem _ (List.mem_cons_self _ _)⟩
    · obtain ⟨h1, h2⟩ := ih h
      exact ⟨List.mem_cons_of_mem _ (List.mem_cons_of_mem _ h1),
             List.mem_cons_of_mem _ (List.mem_cons_of_mem _ h2)⟩

/-- Claim C10: a fetched pull request whose repository has no entry under
the configuration's `repositories` mapping is never slated for
processing (its slug never appears in the to-process list); if such a
pull request was previously persisted, its record stays in the cleanup
set, for which the driver invokes the retrier's cleanup and deletes the
record — exactly like a no-longer-tracked pull request. -/
theorem C10_unconfigured_repo_cleanup (cfg : Config) (all_gh_prs : List PullRequest)
    (existing_prs : List (String × PullRequest)) (pr : PullRequest)
    (hwf : ∀ e ∈ existing_prs, (Prod.snd e).slug = e.1)
    (_hmem : pr ∈ all_gh_prs)
    (hnc : lookupStr cfg.repositories pr.repo = none)
    (huniq : ∀ q ∈ all_gh_prs, q.slug = pr.slug → q = pr) :
    (∀ q ∈ (triagePrs cfg all_gh_prs existing_prs).1, q.slug ≠ pr.slug)
    ∧ (∀ p : PullRequest, (pr.slug, p) ∈ existing_prs →
        p ∈ (triagePrs cfg all_gh_prs existing_prs).2
        ∧ MainEffect.retrier_cleanup_pr p
            ∈ cleanupPrs (triagePrs cfg all_gh_prs existing_prs).2
        ∧ MainEffect.db_delete p
            ∈ cleanupPrs (triagePrs cfg all_gh_prs existing_prs).2) := by
  constructor
  · intro q hq hslug
    obtain ⟨q0, hq0, hcfg0, hqs⟩ :=
      triagePrs_process_configured cfg all_gh_prs existing_prs hwf q hq
    have hq0pr : q0 = pr := huniq q0 hq0 (by rw [← hqs]; exact hslug)
    rw [hq0pr] at hcfg0
    exact hcfg0 hnc
  · intro p hp
    have hcl : p ∈ (triagePrs cfg all_gh_prs existing_prs).2 :=
      triagePrs_cleanup_keeps cfg all_gh_prs existing_prs pr.slug p hp (by
        intro q hq
        by_cases hqs : q.slug = pr.slug
        · left; rw [huniq q hq hqs]; exact hnc
        · right; exact hqs)
    obtain ⟨h1, h2⟩ := cleanupPrs_effects hcl
    exact ⟨hcl, h1, h2⟩

theorem C10_witness :
    (∀ q ∈ (triagePrs {} [⟨"r", 1, none, none⟩]
        [("r#1", ⟨"r", 1, some "s", some "failed"⟩)]).1,
      q.slug ≠ PullRequest.slug ⟨"r", 1, none, none⟩)
    ∧ (∀ p : PullRequest,
        (PullRequest.slug ⟨"r", 1, none, none⟩, p)
          ∈ [("r#1", ⟨"r", 1, some "s", some "failed"⟩)] →
        p ∈ (triagePrs {} [⟨"r", 1, none, none⟩]
              [("r#1", ⟨"r", 1, some "s", some "failed"⟩)]).2
        ∧ MainEffect.retrier_cleanup_pr p
            ∈ cleanupPrs (triagePrs {} [⟨"r", 1, none, none⟩]
                [("r#1", ⟨"r", 1, some "s", some "failed"⟩)]).2
        ∧ MainEffect.db_delete p
            ∈ cleanupPrs (triagePrs {} [⟨"r", 1, none, none⟩]
                [("r#1", ⟨"r", 1, some "s", some "failed"⟩)]).2) :=
  C10_unconfigured_repo_cleanup {} [⟨"r", 1, none, none⟩]
    [("r#1", ⟨"r", 1, some "s", some "failed"⟩)] ⟨"r", 1, none, none⟩
    (by decide) (List.mem_cons_self _ _) rfl (by decide)
